import Mathlib

/-!
Verification of the Flowpoint Outlook add-in bulk-archive pipeline.

The definitions below are a shallow embedding of the TypeScript source in
`src/taskpane/TaskPane.tsx` and `src/commands/dialog.tsx`.  HTTP calls are
modelled by their outcomes (an `Except` value per call), JS strings used as
file names are modelled as `List Char` (sequences of UTF-16 code units),
and opaque identifiers (REST ids, drive ids, field values) as `String`.
-/

namespace Flowpoint

/-- An error thrown by a Graph fetch.  In the source an error object may or
may not carry an HTTP `status` field (`e?.status ?? e?.response?.status`),
so the status is an `Option`. -/
structure GraphError where
  status : Option Int
deriving DecidableEq, Repr

/-- The retry condition of `withRetry` (TaskPane.tsx lines 93-95, dialog.tsx
lines 36-37): `status === 429 || (status >= 500 && status <= 599)`.  When the
error carries no status, both comparisons are false in JavaScript. -/
def retriableStatus (e : GraphError) : Bool :=
  match e.status with
  | some s => s == 429 || (decide (500 ≤ s) && decide (s ≤ 599))
  | none => false

/-- The observable record of one `withRetry` run: the final outcome, how many
times the wrapped function was invoked, and the delays waited (in ms, in
order) before each re-invocation. -/
structure RetryRun (α : Type) where
  result : Except GraphError α
  calls : Nat
  waits : List Nat
deriving Repr

/-- Loop body of `withRetry` (TaskPane.tsx lines 87-102).  `fn i` is the
outcome of the `(i+1)`-th invocation of the wrapped function, `delay` the
current backoff delay and `fuel = max - attempt` the remaining attempt
budget.  The loop retries only when the error is retriable and
`attempt + 1 < max` (i.e. `2 ≤ fuel`), waiting `delay` and doubling it. -/
def withRetryGo (fn : Nat → Except GraphError α) (i delay fuel : Nat) :
    RetryRun α :=
  match fn i with
  | .ok v => ⟨.ok v, i + 1, []⟩
  | .error e =>
    if h : retriableStatus e = true ∧ 2 ≤ fuel then
      let r := withRetryGo fn (i + 1) (delay * 2) (fuel - 1)
      ⟨r.result, r.calls, delay :: r.waits⟩
    else ⟨.error e, i + 1, []⟩
termination_by fuel
decreasing_by omega

/-- `withRetry(fn, max, baseDelayMs)` from TaskPane.tsx lines 87-102 (the
dialog copy at dialog.tsx lines 31-44 is token-identical in behaviour). -/
def withRetry (fn : Nat → Except GraphError α) (max baseDelayMs : Nat) :
    RetryRun α :=
  withRetryGo fn 0 baseDelayMs max

/-- `withRetry` with its default arguments `max = 4`, `baseDelayMs = 500`. -/
def withRetryDefault (fn : Nat → Except GraphError α) : RetryRun α :=
  withRetry fn 4 500

theorem withRetryGo_ok (fn : Nat → Except GraphError α) (i delay fuel : Nat)
    (v : α) (h : fn i = .ok v) :
    withRetryGo fn i delay fuel = ⟨.ok v, i + 1, []⟩ := by
  rw [withRetryGo, h]

theorem withRetryGo_stop (fn : Nat → Except GraphError α) (i delay fuel : Nat)
    (e : GraphError) (h : fn i = .error e)
    (hc : ¬(retriableStatus e = true ∧ 2 ≤ fuel)) :
    withRetryGo fn i delay fuel = ⟨.error e, i + 1, []⟩ := by
  rw [withRetryGo, h]
  exact dif_neg hc

theorem withRetryGo_retry (fn : Nat → Except GraphError α) (i delay fuel : Nat)
    (e : GraphError) (h : fn i = .error e)
    (hc : retriableStatus e = true ∧ 2 ≤ fuel) :
    withRetryGo fn i delay fuel =
      ⟨(withRetryGo fn (i + 1) (delay * 2) (fuel - 1)).result,
       (withRetryGo fn (i + 1) (delay * 2) (fuel - 1)).calls,
       delay :: (withRetryGo fn (i + 1) (delay * 2) (fuel - 1)).waits⟩ := by
  rw [withRetryGo, h]
  exact dif_pos hc

theorem withRetryGo_spec (fn : Nat → Except GraphError α) :
    ∀ fuel i delay,
      i < (withRetryGo fn i delay fuel).calls ∧
      (1 ≤ fuel → (withRetryGo fn i delay fuel).calls ≤ i + fuel) ∧
      (withRetryGo fn i delay fuel).result
        = fn ((withRetryGo fn i delay fuel).calls - 1) ∧
      (∀ j, i ≤ j → j + 1 < (withRetryGo fn i delay fuel).calls →
        ∃ e, fn j = .error e ∧ retriableStatus e = true) ∧
      (withRetryGo fn i delay fuel).waits
        = (List.range ((withRetryGo fn i delay fuel).calls - 1 - i)).map
            (fun k => delay * 2 ^ k) ∧
      (∀ e, (withRetryGo fn i delay fuel).result = .error e →
        retriableStatus e = false ∨ i + fuel ≤ (withRetryGo fn i delay fuel).calls) := by
  intro fuel
  induction fuel using Nat.strong_induction_on with
  | _ fuel ih =>
    intro i delay
    cases hfn : fn i with
    | ok v =>
      rw [withRetryGo_ok fn i delay fuel v hfn]
      dsimp only
      refine ⟨by omega, fun _ => by omega, ?_, ?_, ?_, ?_⟩
      · simp only [Nat.add_sub_cancel, hfn]
      · intro j hij hj; omega
      · simp
      · intro e he; exact absurd he (by simp)
    | error e =>
      by_cases hcond : retriableStatus e = true ∧ 2 ≤ fuel
      · rw [withRetryGo_retry fn i delay fuel e hfn hcond]
        dsimp only
        have hlt : fuel - 1 < fuel := by omega
        obtain ⟨hA, hB, hC, hD, hE, hF⟩ := ih (fuel - 1) hlt (i + 1) (delay * 2)
        have hBB := hB (by omega)
        refine ⟨by omega, fun _ => by omega, hC, ?_, ?_, ?_⟩
        · intro j hij hj
          rcases Nat.eq_or_lt_of_le hij with heq | hlt2
          · exact ⟨e, heq ▸ hfn, hcond.1⟩
          · exact hD j hlt2 hj
        · have hcalls : 1 ≤ (withRetryGo fn (i + 1) (delay * 2) (fuel - 1)).calls - 1 - i := by
            omega
          obtain ⟨m, hm⟩ := Nat.exists_eq_add_of_le hcalls
          have hm2 : (withRetryGo fn (i + 1) (delay * 2) (fuel - 1)).calls - 1 - (i + 1) = m := by
            omega
          rw [hE, hm2, hm, Nat.add_comm 1 m, List.range_succ_eq_map]
          simp only [List.map_cons, List.map_map, pow_zero, Nat.mul_one, List.cons.injEq]
          refine ⟨by trivial, ?_⟩
          apply List.map_congr_left
          intro k _
          simp only [Function.comp_apply, pow_succ]
          ring
        · intro e2 he2
          rcases hF e2 he2 with h1 | h2
          · exact Or.inl h1
          · exact Or.inr (by omega)
      · rw [withRetryGo_stop fn i delay fuel e hfn hcond]
        dsimp only
        refine ⟨by omega, fun _ => by omega, ?_, ?_, ?_, ?_⟩
        · simp only [Nat.add_sub_cancel, hfn]
        · intro j hij hj; omega
        · simp
        · intro e2 he2
          simp only [Except.error.injEq] at he2
          subst he2
          rcases not_and_or.mp hcond with h1 | h2
          · exact Or.inl (by simpa using h1)
          · exact Or.inr (by omega)

/-- The full behavioural specification of one `withRetry fn max base` run
(claim C2): at least one and at most `max` invocations; the result is the
outcome of the last invocation (so a success is returned immediately and the
last error is rethrown); every non-final invocation failed with a retriable
status (429 or 500-599); the waits before the retries are
`base, 2*base, 4*base, ...`; and a rethrown error is either non-retriable or
occurred at the attempt limit. -/
def RetrySpec (fn : Nat → Except GraphError α) (max base : Nat) : Prop :=
  1 ≤ (withRetry fn max base).calls ∧
  (withRetry fn max base).calls ≤ max ∧
  (withRetry fn max base).result = fn ((withRetry fn max base).calls - 1) ∧
  (∀ j, j + 1 < (withRetry fn max base).calls →
    ∃ e, fn j = .error e ∧ retriableStatus e = true) ∧
  (withRetry fn max base).waits
    = (List.range ((withRetry fn max base).calls - 1)).map
        (fun k => base * 2 ^ k) ∧
  (∀ e, (withRetry fn max base).result = .error e →
    retriableStatus e = false ∨ (withRetry fn max base).calls = max) ∧
  (∀ e, retriableStatus e = true ↔
    (e.status = some 429 ∨ ∃ s, e.status = some s ∧ 500 ≤ s ∧ s ≤ 599))

/-- C2: `withRetry` retries only on HTTP 429 or 5xx, with exponential backoff
starting at `baseDelayMs`, invokes the wrapped function at most `max` times,
returns the first success immediately, and otherwise rethrows the last
error (at a non-retriable status or at the attempt limit). -/
theorem retriableStatus_iff (e : GraphError) :
    retriableStatus e = true ↔
      (e.status = some 429 ∨ ∃ s, e.status = some s ∧ 500 ≤ s ∧ s ≤ 599) := by
  unfold retriableStatus
  cases hs : e.status with
  | none => simp
  | some s =>
    simp only [Bool.or_eq_true, beq_iff_eq, Bool.and_eq_true, decide_eq_true_eq,
      Option.some.injEq]
    constructor
    · rintro (h | h)
      · exact Or.inl h
      · exact Or.inr ⟨s, rfl, h.1, h.2⟩
    · rintro (h | ⟨t, ht, h1, h2⟩)
      · exact Or.inl h
      · cases ht; exact Or.inr ⟨h1, h2⟩

theorem claim_C2 (fn : Nat → Except GraphError α) (max base : Nat)
    (hmax : 1 ≤ max) : RetrySpec fn max base := by
  unfold RetrySpec withRetry
  obtain ⟨hA, hB, hC, hD, hE, hF⟩ := withRetryGo_spec fn max 0 base
  have hBB := hB hmax
  refine ⟨by omega, by omega, hC, fun j hj => hD j (Nat.zero_le j) hj,
    by simpa using hE, ?_, fun e => retriableStatus_iff e⟩
  intro e he
  rcases hF e he with h1 | h2
  · exact Or.inl h1
  · exact Or.inr (by omega)

/-- A concrete wrapped function: the first invocation throws HTTP 429, the
second succeeds. -/
def retryWitnessFn : Nat → Except GraphError Nat :=
  fun n => if n = 0 then .error ⟨some 429⟩ else .ok 7

theorem claim_C2_witness : 1 ≤ 4 ∧ RetrySpec retryWitnessFn 4 500 :=
  ⟨by decide, claim_C2 retryWitnessFn 4 500 (by decide)⟩

/-! ## Bulk sequential archiving (TaskPane.tsx lines 589-622) -/

/-- `Except.isOk` test used to phrase the bulk-archive bookkeeping. -/
def exceptOk : Except ε α → Bool
  | .ok _ => true
  | .error _ => false

/-- The observable outcome of `bulkArchiveMessagesSequential`: the final
`success` counter, the recorded `failed` list (REST id with error message,
in the order the failures happened) and the REST ids attempted, in the
order the loop processed them. -/
structure BulkResult where
  success : Nat
  failed : List (String × String)
  attempted : List String
deriving DecidableEq, Repr

/-- `bulkArchiveMessagesSequential(restIds, driveId, folderPath)` from
TaskPane.tsx lines 589-622.  The per-message archive call is abstracted by
`arch`, which maps a REST id to the outcome of
`archiveMessageByRestId(id, driveId, folderPath)` (an `.error` models a
thrown exception, whose message string is recorded).  The loop walks the
ids left to right; a throw is caught, pushed onto `failed` and the loop
continues; a success increments `success`. -/
def bulkArchiveMessagesSequential (arch : String → Except String Unit) :
    List String → BulkResult
  | [] => ⟨0, [], []⟩
  | id :: rest =>
    match arch id with
    | .ok _ =>
      let r := bulkArchiveMessagesSequential arch rest
      ⟨r.success + 1, r.failed, id :: r.attempted⟩
    | .error msg =>
      let r := bulkArchiveMessagesSequential arch rest
      ⟨r.success, (id, msg) :: r.failed, id :: r.attempted⟩

/-- C1: the bulk loop attempts every id in input order; the failed list is
exactly the ids whose archive attempt threw, in input order, each paired
with the error it threw; the success counter counts the ids that did not
throw; and `success + failed.length` equals the input length. -/
theorem claim_C1 (arch : String → Except String Unit) (restIds : List String) :
    (bulkArchiveMessagesSequential arch restIds).attempted = restIds ∧
    (bulkArchiveMessagesSequential arch restIds).failed.map Prod.fst
      = restIds.filter (fun id => !(exceptOk (arch id))) ∧
    (∀ p ∈ (bulkArchiveMessagesSequential arch restIds).failed,
      arch p.1 = .error p.2) ∧
    (bulkArchiveMessagesSequential arch restIds).success
      = (restIds.filter (fun id => exceptOk (arch id))).length ∧
    (bulkArchiveMessagesSequential arch restIds).success
      + (bulkArchiveMessagesSequential arch restIds).failed.length
      = restIds.length := by
  induction restIds with
  | nil =>
    refine ⟨rfl, rfl, ?_, rfl, rfl⟩
    intro p hp
    simp [bulkArchiveMessagesSequential] at hp
  | cons id rest ih =>
    obtain ⟨ihA, ihB, ihC, ihD, ihE⟩ := ih
    cases harch : arch id with
    | ok v =>
      have hok : exceptOk (arch id) = true := by rw [harch]; rfl
      simp only [bulkArchiveMessagesSequential, harch]
      refine ⟨by rw [ihA], ?_, ihC, ?_, by simp only [List.length_cons]; omega⟩
      · simpa [List.filter_cons, hok] using ihB
      · simp [List.filter_cons, hok, ihD]
    | error msg =>
      have hok : exceptOk (arch id) = false := by rw [harch]; rfl
      simp only [bulkArchiveMessagesSequential, harch]
      refine ⟨by rw [ihA], ?_, ?_, ?_, ?_⟩
      · simpa [List.filter_cons, hok] using ihB
      · intro p hp
        rcases List.mem_cons.mp hp with hp1 | hp2
        · rw [hp1]; exact harch
        · exact ihC p hp2
      · simp [List.filter_cons, hok, ihD]
      · simp only [List.length_cons]
        omega

/-- A concrete archive oracle for the C1 witness: archiving `"b"` throws,
everything else succeeds. -/
def bulkWitnessArch : String → Except String Unit :=
  fun id => if id = "b" then .error "boom" else .ok ()

theorem claim_C1_witness :
    (bulkArchiveMessagesSequential bulkWitnessArch ["a", "b", "c"]).attempted
        = ["a", "b", "c"] ∧
    (bulkArchiveMessagesSequential bulkWitnessArch ["a", "b", "c"]).failed.map Prod.fst
        = (["a", "b", "c"].filter (fun id => !(exceptOk (bulkWitnessArch id)))) ∧
    (∀ p ∈ (bulkArchiveMessagesSequential bulkWitnessArch ["a", "b", "c"]).failed,
      bulkWitnessArch p.1 = .error p.2) ∧
    (bulkArchiveMessagesSequential bulkWitnessArch ["a", "b", "c"]).success
        = (["a", "b", "c"].filter (fun id => exceptOk (bulkWitnessArch id))).length ∧
    (bulkArchiveMessagesSequential bulkWitnessArch ["a", "b", "c"]).success
        + (bulkArchiveMessagesSequential bulkWitnessArch ["a", "b", "c"]).failed.length
        = (["a", "b", "c"] : List String).length :=
  claim_C1 bulkWitnessArch ["a", "b", "c"]

/-! ## Chunked upload (TaskPane.tsx lines 759-782, dialog.tsx lines 238-262) -/

/-- The chunk size constant `5 * 1024 * 1024` (5 MiB). -/
def chunkSize : Nat := 5 * 1024 * 1024

/-- One PUT issued by `uploadInChunksWithRetry`: the byte offset of the
slice, its length, and the `Content-Range` header sent with it. -/
structure Chunk where
  offset : Nat
  len : Nat
  contentRange : String
deriving DecidableEq, Repr

/-- The `Content-Range` header string built in the source:
`bytes ${offset}-${end}/${total}` with `end = offset + slice.size - 1`. -/
def contentRangeHeader (offset len total : Nat) : String :=
  "bytes " ++ toString offset ++ "-" ++ toString (offset + len - 1)
    ++ "/" ++ toString total

/-- The loop of `uploadInChunksWithRetry`: while `offset < total`, slice
`blob.slice(offset, min(offset + chunkSize, total))` (so the slice length
is `min chunkSize (total - offset)`), PUT it with its Content-Range header,
and advance `offset` by the slice length. -/
def uploadChunkPlanGo (total offset : Nat) : List Chunk :=
  if _h : offset < total then
    ⟨offset, min chunkSize (total - offset),
      contentRangeHeader offset (min chunkSize (total - offset)) total⟩ ::
      uploadChunkPlanGo total (offset + min chunkSize (total - offset))
  else []
termination_by total - offset
decreasing_by
  have hc : 0 < chunkSize := by decide
  omega

/-- The sequence of PUTs `uploadInChunksWithRetry` performs on a blob of
`total` bytes (TaskPane.tsx lines 759-782; the dialog copy at dialog.tsx
lines 238-262 runs the same loop with a `for` header). -/
def uploadInChunksWithRetryPlan (total : Nat) : List Chunk :=
  uploadChunkPlanGo total 0

/-- The chunks starting at `o` are consecutive: each chunk begins exactly
where the previous one ended, is non-empty, and is at most `chunkSize`
bytes long. -/
def chunksConsecutiveFrom : Nat → List Chunk → Prop
  | _, [] => True
  | o, c :: rest =>
      c.offset = o ∧ 0 < c.len ∧ c.len ≤ chunkSize ∧
      chunksConsecutiveFrom (o + c.len) rest

/-- Total number of bytes carried by a list of chunks. -/
def sumLens (cs : List Chunk) : Nat := (cs.map Chunk.len).sum

theorem uploadChunkPlanGo_spec :
    ∀ n total offset, total - offset ≤ n →
      chunksConsecutiveFrom offset (uploadChunkPlanGo total offset) ∧
      sumLens (uploadChunkPlanGo total offset) = total - offset ∧
      ∀ c ∈ uploadChunkPlanGo total offset,
        c.contentRange = contentRangeHeader c.offset c.len total := by
  intro n
  induction n with
  | zero =>
    intro total offset hn
    rw [uploadChunkPlanGo, dif_neg (by omega)]
    exact ⟨trivial, by simp [sumLens]; omega, by simp⟩
  | succ n ih =>
    intro total offset hn
    by_cases h : offset < total
    · rw [uploadChunkPlanGo, dif_pos h]
      have hc : 0 < chunkSize := by decide
      have hlen1 : 0 < min chunkSize (total - offset) := by omega
      have hlen2 : min chunkSize (total - offset) ≤ chunkSize := Nat.min_le_left _ _
      have hlen3 : min chunkSize (total - offset) ≤ total - offset := Nat.min_le_right _ _
      obtain ⟨ih1, ih2, ih3⟩ :=
        ih total (offset + min chunkSize (total - offset)) (by omega)
      refine ⟨⟨rfl, hlen1, hlen2, ih1⟩, ?_, ?_⟩
      · simp only [sumLens, List.map_cons, List.sum_cons] at ih2 ⊢
        omega
      · intro c hc2
        rcases List.mem_cons.mp hc2 with h1 | h2
        · rw [h1]
        · exact ih3 c h2
    · rw [uploadChunkPlanGo, dif_neg h]
      exact ⟨trivial, by simp [sumLens]; omega, by simp⟩

theorem chunksConsecutiveFrom_mem_bound :
    ∀ (cs : List Chunk) (o : Nat), chunksConsecutiveFrom o cs →
      ∀ c ∈ cs, o ≤ c.offset ∧ c.offset + c.len ≤ o + sumLens cs ∧
        0 < c.len ∧ c.len ≤ chunkSize := by
  intro cs
  induction cs with
  | nil => intro o _ c hc; exact absurd hc (by simp)
  | cons d rest ih =>
    intro o hcons c hc
    obtain ⟨hoff, hpos, hle, hrest⟩ := hcons
    rcases List.mem_cons.mp hc with h1 | h2
    · subst h1
      simp only [sumLens, List.map_cons, List.sum_cons]
      refine ⟨by omega, by omega, hpos, hle⟩
    · obtain ⟨hb1, hb2, hb3, hb4⟩ := ih (o + d.len) hrest c h2
      simp only [sumLens, List.map_cons, List.sum_cons] at hb2 ⊢
      exact ⟨by omega, by omega, hb3, hb4⟩

theorem chunksConsecutiveFrom_cover :
    ∀ (cs : List Chunk) (o : Nat), chunksConsecutiveFrom o cs →
      ∀ b, (o ≤ b ∧ b < o + sumLens cs) ↔
        ∃ c ∈ cs, c.offset ≤ b ∧ b < c.offset + c.len := by
  intro cs
  induction cs with
  | nil =>
    intro o _ b
    simp only [sumLens, List.map_nil, List.sum_nil, List.not_mem_nil]
    constructor
    · intro h; omega
    · rintro ⟨c, hc, _⟩; exact absurd hc (by simp)
  | cons d rest ih =>
    intro o hcons b
    obtain ⟨hoff, hpos, hle, hrest⟩ := hcons
    subst hoff
    constructor
    · rintro ⟨h1, h2⟩
      by_cases hb : b < d.offset + d.len
      · exact ⟨d, List.mem_cons_self d rest, h1, hb⟩
      · have := (ih (d.offset + d.len) hrest b).mp
          (by simp only [sumLens, List.map_cons, List.sum_cons] at h2 ⊢; omega)
        obtain ⟨c, hc, hcb⟩ := this
        exact ⟨c, List.mem_cons_of_mem d hc, hcb⟩
    · rintro ⟨c, hc, hc1, hc2⟩
      rcases List.mem_cons.mp hc with h1 | h2
      · subst h1
        simp only [sumLens, List.map_cons, List.sum_cons]
        constructor
        · exact hc1
        · omega
      · obtain ⟨hb1, hb2, hb3, hb4⟩ :=
          chunksConsecutiveFrom_mem_bound rest (d.offset + d.len) hrest c h2
        simp only [sumLens, List.map_cons, List.sum_cons] at hb2 ⊢
        constructor
        · omega
        · omega

theorem chunksConsecutiveFrom_pairwise :
    ∀ (cs : List Chunk) (o : Nat), chunksConsecutiveFrom o cs →
      cs.Pairwise (fun c d => c.offset + c.len ≤ d.offset) := by
  intro cs
  induction cs with
  | nil => intro o _; exact List.Pairwise.nil
  | cons d rest ih =>
    intro o hcons
    obtain ⟨hoff, hpos, hle, hrest⟩ := hcons
    refine List.Pairwise.cons ?_ (ih (o + d.len) hrest)
    intro c hc
    have := (chunksConsecutiveFrom_mem_bound rest (o + d.len) hrest c hc).1
    omega

theorem chunksConsecutiveFrom_length_le :
    ∀ (cs : List Chunk) (o : Nat), chunksConsecutiveFrom o cs →
      cs.length ≤ sumLens cs := by
  intro cs
  induction cs with
  | nil => intro o _; simp [sumLens]
  | cons d rest ih =>
    intro o hcons
    obtain ⟨hoff, hpos, hle, hrest⟩ := hcons
    have := ih (o + d.len) hrest
    simp only [sumLens, List.map_cons, List.sum_cons, List.length_cons] at this ⊢
    omega

/-- C6: the chunked-upload loop splits a `total`-byte blob into consecutive
chunks of at most 5 MiB: the offsets start at 0 and advance by exactly each
chunk's length; each PUT carries a Content-Range header
`bytes offset-(offset+len-1)/total`; the chunks cover the byte range
`[0, total)` with no gap and no overlap; the plan is a finite list (at most
`total` chunks, so the loop terminates); and an empty blob produces no PUT
at all. -/
theorem claim_C6 (total : Nat) :
    chunksConsecutiveFrom 0 (uploadInChunksWithRetryPlan total) ∧
    sumLens (uploadInChunksWithRetryPlan total) = total ∧
    (∀ c ∈ uploadInChunksWithRetryPlan total,
      c.contentRange = contentRangeHeader c.offset c.len total ∧
      0 < c.len ∧ c.len ≤ chunkSize) ∧
    (∀ b, b < total ↔
      ∃ c ∈ uploadInChunksWithRetryPlan total,
        c.offset ≤ b ∧ b < c.offset + c.len) ∧
    (uploadInChunksWithRetryPlan total).Pairwise
      (fun c d => c.offset + c.len ≤ d.offset) ∧
    (uploadInChunksWithRetryPlan total).length ≤ total ∧
    uploadInChunksWithRetryPlan 0 = [] := by
  obtain ⟨h1, h2, h3⟩ := uploadChunkPlanGo_spec total total 0 (by omega)
  have h2t : sumLens (uploadInChunksWithRetryPlan total) = total := by
    simpa [uploadInChunksWithRetryPlan] using h2
  refine ⟨h1, h2t, ?_, ?_, ?_, ?_, ?_⟩
  · intro c hc
    obtain ⟨_, _, hb3, hb4⟩ := chunksConsecutiveFrom_mem_bound _ 0 h1 c hc
    exact ⟨h3 c hc, hb3, hb4⟩
  · intro b
    have := chunksConsecutiveFrom_cover (uploadInChunksWithRetryPlan total) 0 h1 b
    rw [h2t] at this
    simpa using this
  · exact chunksConsecutiveFrom_pairwise _ 0 h1
  · have hlen := chunksConsecutiveFrom_length_le (uploadChunkPlanGo total 0) 0 h1
    show (uploadChunkPlanGo total 0).length ≤ total
    omega
  · rw [uploadInChunksWithRetryPlan, uploadChunkPlanGo, dif_neg (by omega)]

theorem claim_C6_witness :
    chunksConsecutiveFrom 0 (uploadInChunksWithRetryPlan 11534336) ∧
    sumLens (uploadInChunksWithRetryPlan 11534336) = 11534336 ∧
    (∀ c ∈ uploadInChunksWithRetryPlan 11534336,
      c.contentRange = contentRangeHeader c.offset c.len 11534336 ∧
      0 < c.len ∧ c.len ≤ chunkSize) ∧
    (∀ b, b < 11534336 ↔
      ∃ c ∈ uploadInChunksWithRetryPlan 11534336,
        c.offset ≤ b ∧ b < c.offset + c.len) ∧
    (uploadInChunksWithRetryPlan 11534336).Pairwise
      (fun c d => c.offset + c.len ≤ d.offset) ∧
    (uploadInChunksWithRetryPlan 11534336).length ≤ 11534336 ∧
    uploadInChunksWithRetryPlan 0 = [] :=
  claim_C6 11534336

/-! ## File names (TaskPane.tsx lines 81-82, dialog.tsx lines 28-29)

Subjects and file names are sequences of UTF-16 code units, modelled as
`List Char`; the predicates below test a code unit against the character
class of each regex, written with the code points spelled out
(a-z = 97-122, A-Z = 65-90, 0-9 = 48-57, `-` = 45, `_` = 95, `.` = 46,
space = 32, `\` = 92). -/

/-- The character class of the task-pane regex `[^a-z0-9\-_. ]` with the
`i` flag: letters (both cases), digits, `-`, `_`, `.` and space are kept,
everything else is replaced. -/
def allowedCharTaskpane (c : Char) : Bool :=
  (97 ≤ c.toNat && c.toNat ≤ 122) || (65 ≤ c.toNat && c.toNat ≤ 90) ||
  (48 ≤ c.toNat && c.toNat ≤ 57) ||
  c.toNat == 45 || c.toNat == 95 || c.toNat == 46 || c.toNat == 32

/-- The character class of the dialog regex literal `[^a-z0-9\\-_. ]` with
the `i` flag.  In a regex literal `\\` is an escaped backslash (code 92),
so `\\-_` is the character range 92-95 (`\`, `]`, `^`, `_`): letters,
digits, that range, `.` and space are kept.  Unlike the task-pane copy,
`-` (code 45) is NOT in the class. -/
def allowedCharDialog (c : Char) : Bool :=
  (97 ≤ c.toNat && c.toNat ≤ 122) || (65 ≤ c.toNat && c.toNat ≤ 90) ||
  (48 ≤ c.toNat && c.toNat ≤ 57) ||
  (92 ≤ c.toNat && c.toNat ≤ 95) || c.toNat == 46 || c.toNat == 32

/-- `subject.replace(regex, "_")`: every code unit outside the class is
replaced by an underscore. -/
def sanitizeWith (allowed : Char → Bool) (s : List Char) : List Char :=
  s.map (fun c => if allowed c then c else '_')

/-- `safeFileNameFromSubject` from TaskPane.tsx lines 81-82:
`(subject || "Email").replace(/[^a-z0-9\-_. ]/gi, "_") + ".eml"`
(an empty or missing subject is the falsy case of `||`). -/
def safeFileNameFromSubject (subject : List Char) : List Char :=
  sanitizeWith allowedCharTaskpane
    (if subject = [] then "Email".toList else subject) ++ ".eml".toList

/-- `safeFileNameFromSubject` from dialog.tsx lines 28-29:
`(subject || "Email").replace(/[^a-z0-9\\-_. ]/gi, "_") + ".eml"`. -/
def safeFileNameFromSubjectDialog (subject : List Char) : List Char :=
  sanitizeWith allowedCharDialog
    (if subject = [] then "Email".toList else subject) ++ ".eml".toList

/-- C10 counterexample: the two copies are NOT extensionally equal.  On the
subject `a-b` the task-pane copy keeps the hyphen while the dialog copy
replaces it with an underscore, and on `a^b` the dialog copy keeps the
caret while the task-pane copy replaces it. -/
theorem claim_C10_counterexample :
    safeFileNameFromSubject "a-b".toList
        ≠ safeFileNameFromSubjectDialog "a-b".toList ∧
    safeFileNameFromSubject "a-b".toList = "a-b.eml".toList ∧
    safeFileNameFromSubjectDialog "a-b".toList = "a_b.eml".toList ∧
    safeFileNameFromSubject "a^b".toList = "a_b.eml".toList ∧
    safeFileNameFromSubjectDialog "a^b".toList = "a^b.eml".toList := by
  decide

theorem allowedChar_eq_of_not_diff (c : Char)
    (h45 : c.toNat ≠ 45) (h92 : c.toNat ≠ 92)
    (h93 : c.toNat ≠ 93) (h94 : c.toNat ≠ 94) :
    allowedCharTaskpane c = allowedCharDialog c := by
  have hiff : (allowedCharTaskpane c = true) ↔ (allowedCharDialog c = true) := by
    unfold allowedCharTaskpane allowedCharDialog
    simp only [Bool.or_eq_true, Bool.and_eq_true, decide_eq_true_eq, beq_iff_eq]
    omega
  cases hA : allowedCharTaskpane c <;> cases hB : allowedCharDialog c <;>
    simp_all

/-- C10 (amended): the two copies agree on every subject that contains
none of the code units 45 (`-`), 92 (`\`), 93 (`]`) and 94 (`^`); they
disagree on subjects containing one of those four characters (see the
counterexample). -/
theorem claim_C10 (s : List Char)
    (h : ∀ c ∈ s, c.toNat ≠ 45 ∧ c.toNat ≠ 92 ∧ c.toNat ≠ 93 ∧ c.toNat ≠ 94) :
    safeFileNameFromSubject s = safeFileNameFromSubjectDialog s := by
  unfold safeFileNameFromSubject safeFileNameFromSubjectDialog sanitizeWith
  by_cases hs : s = []
  · subst hs
    decide
  · rw [if_neg hs]
    congr 1
    apply List.map_congr_left
    intro c hc
    obtain ⟨h45, h92, h93, h94⟩ := h c hc
    rw [allowedChar_eq_of_not_diff c h45 h92 h93 h94]

theorem claim_C10_witness :
    (∀ c ∈ "Report 12.3".toList,
      c.toNat ≠ 45 ∧ c.toNat ≠ 92 ∧ c.toNat ≠ 93 ∧ c.toNat ≠ 94) ∧
    safeFileNameFromSubject "Report 12.3".toList
      = safeFileNameFromSubjectDialog "Report 12.3".toList :=
  ⟨by decide, claim_C10 "Report 12.3".toList (by decide)⟩

/-! ## The SharePoint library state and the de-dupe lookup
(TaskPane.tsx lines 29-34, 524-554) -/

/-- Field internal names from TaskPane.tsx lines 29-34. -/
def fieldFrom : String := "From"

def fieldFromAddress : String := "From_x002d_Address"

def fieldReceived : String := "Received"

def fieldAttachment : String := "Attachment"

def fieldOriginalLink : String := "OriginalMessageLink"

def fieldInternetId : String := "InternetMessageId"

/-- A value stored in a list-item field (the patched payload mixes strings
and the boolean `Attachment` flag). -/
inductive FieldValue where
  | str (s : String)
  | boolean (b : Bool)
deriving DecidableEq, Repr

/-- A drive item together with its list-item fields. -/
structure LibItem where
  name : List Char
  fields : List (String × FieldValue)
deriving DecidableEq, Repr

/-- Read a list-item field by internal name. -/
def getField (it : LibItem) (k : String) : Option FieldValue :=
  (it.fields.find? (fun p => p.1 == k)).map Prod.snd

/-- The remote state the task pane interacts with: the items of the target
drive, the cached column set `availableFields` (populated by
`refreshAvailableFieldsForDrive`, which falls back to the empty set on
error, TaskPane.tsx lines 524-533), and whether the de-dupe list query
currently fails. -/
structure LibState where
  items : List LibItem
  availableFields : List String
  lookupFails : Bool
deriving DecidableEq, Repr

/-- The Graph list query
`?$filter=fields/InternetMessageId eq '...'&$top=1&$select=id`
(TaskPane.tsx lines 544-548): an error when the request fails, otherwise
the first at most one item whose `InternetMessageId` field equals the
message id (the URL encoding of the filter value is decoded again
server-side, so the comparison is on the raw id). -/
def dedupeLookup (st : LibState) (imid : String) : Except String (List LibItem) :=
  if st.lookupFails then .error "lookup failed"
  else .ok ((st.items.filter
    (fun it => decide (getField it fieldInternetId = some (.str imid)))).take 1)

/-- The body of the `try` block of `existsByInternetMessageId`
(TaskPane.tsx lines 537-549). -/
def existsByInternetMessageIdBody (st : LibState) (imid : String) :
    Except String Bool :=
  if imid = "" then .ok false
  else if !(st.availableFields.contains fieldInternetId) then .ok false
  else
    match dedupeLookup st imid with
    | .error e => .error e
    | .ok l => .ok (decide (0 < l.length))

/-- `existsByInternetMessageId` (TaskPane.tsx lines 536-554): the `catch`
turns any lookup failure into `false` ("proceeding without blocking"). -/
def existsByInternetMessageId (st : LibState) (imid : String) :
    Except String Bool :=
  match existsByInternetMessageIdBody st imid with
  | .ok b => .ok b
  | .error _ => .ok false

/-- The boolean the caller `archiveMessageByRestId` observes (the promise
always resolves). -/
def existsBool (st : LibState) (imid : String) : Bool :=
  match existsByInternetMessageId st imid with
  | .ok b => b
  | .error _ => false

/-- Full case characterization of `existsByInternetMessageId`: it always
resolves with `.ok`, and the boolean follows the guard chain of the
source. -/
theorem existsByInternetMessageId_cases (st : LibState) (imid : String) :
    existsByInternetMessageId st imid
      = .ok (if imid = "" then false
             else if !(st.availableFields.contains fieldInternetId) then false
             else if st.lookupFails then false
             else decide (0 < ((st.items.filter
               (fun it => decide (getField it fieldInternetId
                 = some (.str imid)))).take 1).length)) := by
  unfold existsByInternetMessageId existsByInternetMessageIdBody dedupeLookup
  by_cases h1 : imid = ""
  · rw [if_pos h1, if_pos h1]
  · rw [if_neg h1, if_neg h1]
    by_cases h2 : st.availableFields.contains fieldInternetId
    · rw [h2]
      simp only [Bool.not_true, Bool.false_eq_true, if_false]
      by_cases h3 : st.lookupFails
      · rw [if_pos h3, if_pos h3]
      · rw [if_neg h3, if_neg h3]
    · have h2f : st.availableFields.contains fieldInternetId = false := by
        simpa using h2
      rw [h2f]
      simp only [Bool.not_false, if_true]

/-- The same characterization for the boolean the archive code observes. -/
theorem existsBool_eq (st : LibState) (imid : String) :
    existsBool st imid
      = (if imid = "" then false
         else if !(st.availableFields.contains fieldInternetId) then false
         else if st.lookupFails then false
         else decide (0 < ((st.items.filter
           (fun it => decide (getField it fieldInternetId
             = some (.str imid)))).take 1).length)) := by
  unfold existsBool
  rw [existsByInternetMessageId_cases]

/-- C8: `existsByInternetMessageId` never throws; it returns `false` for an
empty id, when the cached column set lacks `InternetMessageId`, and when
the Graph lookup fails; and it returns `true` only when the lookup
succeeded and the filtered query returned at least one item. -/
theorem claim_C8 (st : LibState) (imid : String) :
    (∃ b, existsByInternetMessageId st imid = .ok b) ∧
    (imid = "" → existsByInternetMessageId st imid = .ok false) ∧
    (st.availableFields.contains fieldInternetId = false →
      existsByInternetMessageId st imid = .ok false) ∧
    (st.lookupFails = true → existsByInternetMessageId st imid = .ok false) ∧
    (existsByInternetMessageId st imid = .ok true →
      st.lookupFails = false ∧
      0 < (st.items.filter
        (fun it => decide (getField it fieldInternetId = some (.str imid)))).length) := by
  have hch := existsByInternetMessageId_cases st imid
  refine ⟨⟨_, hch⟩, ?_, ?_, ?_, ?_⟩
  · intro h
    rw [hch, if_pos h]
  · intro h
    rw [hch, h]
    simp
  · intro h
    rw [hch, h]
    simp
  · intro h
    rw [hch] at h
    simp only [Except.ok.injEq] at h
    by_cases h1 : imid = ""
    · rw [if_pos h1] at h
      exact absurd h (by simp)
    · rw [if_neg h1] at h
      by_cases h2 : (!st.availableFields.contains fieldInternetId) = true
      · rw [if_pos h2] at h
        exact absurd h (by simp)
      · rw [if_neg h2] at h
        by_cases h3 : st.lookupFails = true
        · rw [if_pos h3] at h
          exact absurd h (by simp)
        · rw [if_neg h3] at h
          simp only [decide_eq_true_eq] at h
          rw [List.length_take] at h
          refine ⟨by simpa using h3, by omega⟩

/-- A concrete library state for the C8 witness: the column exists but the
lookup currently fails. -/
def dedupeWitnessState : LibState := ⟨[], ["InternetMessageId"], true⟩

theorem claim_C8_witness :
    (∃ b, existsByInternetMessageId dedupeWitnessState "id1" = .ok b) ∧
    ("id1" = "" → existsByInternetMessageId dedupeWitnessState "id1" = .ok false) ∧
    (dedupeWitnessState.availableFields.contains fieldInternetId = false →
      existsByInternetMessageId dedupeWitnessState "id1" = .ok false) ∧
    (dedupeWitnessState.lookupFails = true →
      existsByInternetMessageId dedupeWitnessState "id1" = .ok false) ∧
    (existsByInternetMessageId dedupeWitnessState "id1" = .ok true →
      dedupeWitnessState.lookupFails = false ∧
      0 < (dedupeWitnessState.items.filter
        (fun it => decide (getField it fieldInternetId = some (.str "id1")))).length) :=
  claim_C8 dedupeWitnessState "id1"

/-! ## Archiving a single message (TaskPane.tsx lines 625-756) -/

/-- The `$select`ed metadata of a Graph message
(`subject,from,hasAttachments,receivedDateTime,webLink,internetMessageId`).
Every field is optional in the Graph response. -/
structure Msg where
  subject : Option (List Char)
  fromAddress : Option String
  fromName : Option String
  hasAttachments : Option Bool
  receivedDateTime : Option String
  webLink : Option String
  internetMessageId : Option String
deriving DecidableEq, Repr

/-- The argument `msg.subject || "Email"` passed to
`safeFileNameFromSubject` (an empty or missing subject is falsy). -/
def subjectArg (m : Msg) : List Char :=
  match m.subject with
  | some s => if s = [] then "Email".toList else s
  | none => "Email".toList

/-- The metadata payload of the final PATCH (TaskPane.tsx lines 712-734):
the four core fields in insertion order, then `OriginalMessageLink` and
`InternetMessageId` when the cached column set has them and the message
value is truthy, filtered by the `allowed` set (the four core names plus
every cached column name). -/
def buildPayload (avail : List String) (m : Msg) (now : String) :
    List (String × FieldValue) :=
  let base : List (String × FieldValue) :=
    [(fieldFromAddress, .str (m.fromAddress.getD "")),
     (fieldReceived, .str (m.receivedDateTime.getD now)),
     (fieldAttachment, .boolean (m.hasAttachments.getD false)),
     (fieldFrom, .str (m.fromName.getD ""))]
  let withLink := base ++
    (if avail.contains fieldOriginalLink && !((m.webLink.getD "") == "") then
      [(fieldOriginalLink, .str (m.webLink.getD ""))]
    else [])
  let withIid := withLink ++
    (if avail.contains fieldInternetId && !((m.internetMessageId.getD "") == "") then
      [(fieldInternetId, .str (m.internetMessageId.getD ""))]
    else [])
  withIid.filter (fun p =>
    ([fieldFrom, fieldFromAddress, fieldReceived, fieldAttachment]
      ++ avail).contains p.1)

/-- The HTTP steps `archiveMessageByRestId` can issue, in source order. -/
inductive ArchiveStep where
  | fetchMetadata
  | dedupeCheck
  | downloadMime
  | createSession
  | uploadChunks
  | resolveItem
  | patchFields
deriving DecidableEq, Repr

/-- Decidable equality of call outcomes (used so that concrete
counterexamples can be checked by `decide`). -/
instance {ε α : Type} [DecidableEq ε] [DecidableEq α] :
    DecidableEq (Except ε α) := fun x y =>
  match x, y with
  | .ok a, .ok b =>
    if h : a = b then isTrue (by rw [h])
    else isFalse (by intro hc; cases hc; exact h rfl)
  | .ok _, .error _ => isFalse (by intro hc; cases hc)
  | .error _, .ok _ => isFalse (by intro hc; cases hc)
  | .error e, .error f =>
    if h : e = f then isTrue (by rw [h])
    else isFalse (by intro hc; cases hc; exact h rfl)

/-- The outcomes of the HTTP calls of one `archiveMessageByRestId` run
(each already wrapped in `withRetry`, so an `.error` models the call
ultimately throwing), plus the clock value used for the
`new Date().toISOString()` fallback. -/
structure ArchiveEnv where
  metaResult : Except GraphError Msg
  downloadResult : Except GraphError Nat
  sessionResult : Except GraphError String
  uploadResult : Except GraphError Unit
  resolveResult : Except GraphError String
  patchResult : Except GraphError Unit
  now : String
deriving DecidableEq, Repr

/-- What one `archiveMessageByRestId` run did: the HTTP steps issued in
order, the outcome of the promise, the remote state afterwards, and the
file name of a completed chunk upload (`none` when nothing was
uploaded). -/
structure ArchiveOutcome where
  trace : List ArchiveStep
  result : Except GraphError Unit
  state : LibState
  uploadedName : Option (List Char)
deriving DecidableEq, Repr

/-- `archiveMessageByRestId` (TaskPane.tsx lines 625-756): fetch the
message metadata; run the de-dupe lookup and return early on a hit;
download the MIME; create the upload session under
`safeFileNameFromSubject(msg.subject || "Email")`; upload the chunks
(which creates the drive item); resolve the uploaded item; PATCH its
list-item fields.  Any throw aborts the remaining steps. -/
def archiveMessageByRestId (env : ArchiveEnv) (st : LibState) :
    ArchiveOutcome :=
  match env.metaResult with
  | .error e => ⟨[.fetchMetadata], .error e, st, none⟩
  | .ok msg =>
    if existsBool st (msg.internetMessageId.getD "") then
      ⟨[.fetchMetadata, .dedupeCheck], .ok (), st, none⟩
    else
      match env.downloadResult with
      | .error e =>
        ⟨[.fetchMetadata, .dedupeCheck, .downloadMime], .error e, st, none⟩
      | .ok _blobSize =>
        let fileName := safeFileNameFromSubject (subjectArg msg)
        match env.sessionResult with
        | .error e =>
          ⟨[.fetchMetadata, .dedupeCheck, .downloadMime, .createSession],
           .error e, st, none⟩
        | .ok _uploadUrl =>
          match env.uploadResult with
          | .error e =>
            ⟨[.fetchMetadata, .dedupeCheck, .downloadMime, .createSession,
              .uploadChunks], .error e, st, none⟩
          | .ok _ =>
            match env.resolveResult with
            | .error e =>
              ⟨[.fetchMetadata, .dedupeCheck, .downloadMime, .createSession,
                .uploadChunks, .resolveItem], .error e,
               { st with items := st.items ++ [⟨fileName, []⟩] },
               some fileName⟩
            | .ok _itemId =>
              match env.patchResult with
              | .error e =>
                ⟨[.fetchMetadata, .dedupeCheck, .downloadMime, .createSession,
                  .uploadChunks, .resolveItem, .patchFields], .error e,
                 { st with items := st.items ++ [⟨fileName, []⟩] },
                 some fileName⟩
              | .ok _ =>
                ⟨[.fetchMetadata, .dedupeCheck, .downloadMime, .createSession,
                  .uploadChunks, .resolveItem, .patchFields], .ok (),
                 { st with items := st.items
                     ++ [⟨fileName, buildPayload st.availableFields msg env.now⟩] },
                 some fileName⟩

/-- The full fixed step order of a successful archive run. -/
def fullSteps : List ArchiveStep :=
  [.fetchMetadata, .dedupeCheck, .downloadMime, .createSession,
   .uploadChunks, .resolveItem, .patchFields]

theorem archive_eq_metaErr (e : GraphError)
    (dr : Except GraphError Nat) (sr : Except GraphError String)
    (ur : Except GraphError Unit) (rr : Except GraphError String)
    (pr : Except GraphError Unit) (now : String) (st : LibState) :
    archiveMessageByRestId ⟨.error e, dr, sr, ur, rr, pr, now⟩ st
      = ⟨[.fetchMetadata], .error e, st, none⟩ := rfl

theorem archive_eq_dedupeHit (m : Msg)
    (dr : Except GraphError Nat) (sr : Except GraphError String)
    (ur : Except GraphError Unit) (rr : Except GraphError String)
    (pr : Except GraphError Unit) (now : String) (st : LibState)
    (hex : existsBool st (m.internetMessageId.getD "") = true) :
    archiveMessageByRestId ⟨.ok m, dr, sr, ur, rr, pr, now⟩ st
      = ⟨[.fetchMetadata, .dedupeCheck], .ok (), st, none⟩ := by
  unfold archiveMessageByRestId
  dsimp only
  rw [if_pos hex]

theorem archive_eq_downloadErr (m : Msg) (e : GraphError)
    (sr : Except GraphError String)
    (ur : Except GraphError Unit) (rr : Except GraphError String)
    (pr : Except GraphError Unit) (now : String) (st : LibState)
    (hex : existsBool st (m.internetMessageId.getD "") = false) :
    archiveMessageByRestId ⟨.ok m, .error e, sr, ur, rr, pr, now⟩ st
      = ⟨[.fetchMetadata, .dedupeCheck, .downloadMime], .error e, st, none⟩ := by
  unfold archiveMessageByRestId
  dsimp only
  rw [if_neg (by simp [hex])]

theorem archive_eq_sessionErr (m : Msg) (n : Nat) (e : GraphError)
    (ur : Except GraphError Unit) (rr : Except GraphError String)
    (pr : Except GraphError Unit) (now : String) (st : LibState)
    (hex : existsBool st (m.internetMessageId.getD "") = false) :
    archiveMessageByRestId ⟨.ok m, .ok n, .error e, ur, rr, pr, now⟩ st
      = ⟨[.fetchMetadata, .dedupeCheck, .downloadMime, .createSession],
         .error e, st, none⟩ := by
  unfold archiveMessageByRestId
  dsimp only
  rw [if_neg (by simp [hex])]

theorem archive_eq_uploadErr (m : Msg) (n : Nat) (u : String) (e : GraphError)
    (rr : Except GraphError String)
    (pr : Except GraphError Unit) (now : String) (st : LibState)
    (hex : existsBool st (m.internetMessageId.getD "") = false) :
    archiveMessageByRestId ⟨.ok m, .ok n, .ok u, .error e, rr, pr, now⟩ st
      = ⟨[.fetchMetadata, .dedupeCheck, .downloadMime, .createSession,
          .uploadChunks], .error e, st, none⟩ := by
  unfold archiveMessageByRestId
  dsimp only
  rw [if_neg (by simp [hex])]

theorem archive_eq_resolveErr (m : Msg) (n : Nat) (u : String) (e : GraphError)
    (pr : Except GraphError Unit) (now : String) (st : LibState)
    (hex : existsBool st (m.internetMessageId.getD "") = false) :
    archiveMessageByRestId ⟨.ok m, .ok n, .ok u, .ok (), .error e, pr, now⟩ st
      = ⟨[.fetchMetadata, .dedupeCheck, .downloadMime, .createSession,
          .uploadChunks, .resolveItem], .error e,
         { st with items := st.items
             ++ [⟨safeFileNameFromSubject (subjectArg m), []⟩] },
         some (safeFileNameFromSubject (subjectArg m))⟩ := by
  unfold archiveMessageByRestId
  dsimp only
  rw [if_neg (by simp [hex])]

theorem archive_eq_patchErr (m : Msg) (n : Nat) (u : String) (r : String)
    (e : GraphError) (now : String) (st : LibState)
    (hex : existsBool st (m.internetMessageId.getD "") = false) :
    archiveMessageByRestId ⟨.ok m, .ok n, .ok u, .ok (), .ok r, .error e, now⟩ st
      = ⟨[.fetchMetadata, .dedupeCheck, .downloadMime, .createSession,
          .uploadChunks, .resolveItem, .patchFields], .error e,
         { st with items := st.items
             ++ [⟨safeFileNameFromSubject (subjectArg m), []⟩] },
         some (safeFileNameFromSubject (subjectArg m))⟩ := by
  unfold archiveMessageByRestId
  dsimp only
  rw [if_neg (by simp [hex])]

theorem archive_eq_success (m : Msg) (n : Nat) (u : String) (r : String)
    (now : String) (st : LibState)
    (hex : existsBool st (m.internetMessageId.getD "") = false) :
    archiveMessageByRestId ⟨.ok m, .ok n, .ok u, .ok (), .ok r, .ok (), now⟩ st
      = ⟨[.fetchMetadata, .dedupeCheck, .downloadMime, .createSession,
          .uploadChunks, .resolveItem, .patchFields], .ok (),
         { st with items := st.items
             ++ [⟨safeFileNameFromSubject (subjectArg m),
                  buildPayload st.availableFields m now⟩] },
         some (safeFileNameFromSubject (subjectArg m))⟩ := by
  unfold archiveMessageByRestId
  dsimp only
  rw [if_neg (by simp [hex])]

/-- C5: every `archiveMessageByRestId` run issues its HTTP steps in the
fixed linear order fetch-metadata, de-dupe check, download MIME, create
session, upload chunks, resolve item, patch fields — the trace is always a
prefix of that order; each step is issued only after every earlier step
completed successfully (a de-dupe hit returns early, a throw aborts the
rest); and when every call succeeds and the de-dupe misses, the full
sequence is issued. -/
theorem claim_C5 (env : ArchiveEnv) (st : LibState) :
    (archiveMessageByRestId env st).trace <+: fullSteps ∧
    (ArchiveStep.downloadMime ∈ (archiveMessageByRestId env st).trace →
      (∃ m, env.metaResult = .ok m)) ∧
    (ArchiveStep.createSession ∈ (archiveMessageByRestId env st).trace →
      (∃ n, env.downloadResult = .ok n) ∧
      ArchiveStep.downloadMime ∈ (archiveMessageByRestId env st).trace) ∧
    (ArchiveStep.uploadChunks ∈ (archiveMessageByRestId env st).trace →
      (∃ u, env.sessionResult = .ok u) ∧
      ArchiveStep.createSession ∈ (archiveMessageByRestId env st).trace) ∧
    (ArchiveStep.resolveItem ∈ (archiveMessageByRestId env st).trace →
      env.uploadResult = .ok () ∧
      ArchiveStep.uploadChunks ∈ (archiveMessageByRestId env st).trace) ∧
    (ArchiveStep.patchFields ∈ (archiveMessageByRestId env st).trace →
      (∃ r, env.resolveResult = .ok r) ∧
      ArchiveStep.resolveItem ∈ (archiveMessageByRestId env st).trace) ∧
    (((∃ m, env.metaResult = .ok m ∧
        existsBool st (m.internetMessageId.getD "") = false) ∧
      (∃ n, env.downloadResult = .ok n) ∧
      (∃ u, env.sessionResult = .ok u) ∧
      env.uploadResult = .ok () ∧
      (∃ r, env.resolveResult = .ok r) ∧
      env.patchResult = .ok ()) →
      (archiveMessageByRestId env st).trace = fullSteps) := by
  obtain ⟨mr, dr, sr, ur, rr, pr, now⟩ := env
  cases mr with
  | error e =>
    rw [archive_eq_metaErr]; dsimp only
    refine ⟨⟨[.dedupeCheck, .downloadMime, .createSession, .uploadChunks,
        .resolveItem, .patchFields], rfl⟩,
      fun h => absurd h (by decide), fun h => absurd h (by decide),
      fun h => absurd h (by decide), fun h => absurd h (by decide),
      fun h => absurd h (by decide), ?_⟩
    rintro ⟨⟨m2, hm2, _⟩, _⟩
    cases hm2
  | ok m =>
    by_cases hex : existsBool st (m.internetMessageId.getD "") = true
    · rw [archive_eq_dedupeHit m dr sr ur rr pr now st hex]; dsimp only
      refine ⟨⟨[.downloadMime, .createSession, .uploadChunks,
          .resolveItem, .patchFields], rfl⟩,
        fun h => absurd h (by decide), fun h => absurd h (by decide),
        fun h => absurd h (by decide), fun h => absurd h (by decide),
        fun h => absurd h (by decide), ?_⟩
      rintro ⟨⟨m2, hm2, hfalse⟩, _⟩
      injection hm2 with hm2e
      subst hm2e
      rw [hex] at hfalse
      cases hfalse
    · have hexf : existsBool st (m.internetMessageId.getD "") = false := by
        simpa using hex
      cases dr with
      | error e =>
        rw [archive_eq_downloadErr m e sr ur rr pr now st hexf]; dsimp only
        refine ⟨⟨[.createSession, .uploadChunks, .resolveItem, .patchFields],
            rfl⟩,
          fun _ => ⟨m, rfl⟩, fun h => absurd h (by decide),
          fun h => absurd h (by decide), fun h => absurd h (by decide),
          fun h => absurd h (by decide), ?_⟩
        rintro ⟨_, ⟨n, hn⟩, _⟩
        cases hn
      | ok n =>
        cases sr with
        | error e =>
          rw [archive_eq_sessionErr m n e ur rr pr now st hexf]; dsimp only
          refine ⟨⟨[.uploadChunks, .resolveItem, .patchFields], rfl⟩,
            fun _ => ⟨m, rfl⟩, fun _ => ⟨⟨n, rfl⟩, by decide⟩,
            fun h => absurd h (by decide), fun h => absurd h (by decide),
            fun h => absurd h (by decide), ?_⟩
          rintro ⟨_, _, ⟨u, hu⟩, _⟩
          cases hu
        | ok u =>
          cases ur with
          | error e =>
            rw [archive_eq_uploadErr m n u e rr pr now st hexf]; dsimp only
            refine ⟨⟨[.resolveItem, .patchFields], rfl⟩,
              fun _ => ⟨m, rfl⟩, fun _ => ⟨⟨n, rfl⟩, by decide⟩,
              fun _ => ⟨⟨u, rfl⟩, by decide⟩,
              fun h => absurd h (by decide), fun h => absurd h (by decide), ?_⟩
            rintro ⟨_, _, _, hup, _⟩
            cases hup
          | ok v =>
            cases v
            cases rr with
            | error e =>
              rw [archive_eq_resolveErr m n u e pr now st hexf]; dsimp only
              refine ⟨⟨[.patchFields], rfl⟩,
                fun _ => ⟨m, rfl⟩, fun _ => ⟨⟨n, rfl⟩, by decide⟩,
                fun _ => ⟨⟨u, rfl⟩, by decide⟩, fun _ => ⟨rfl, by decide⟩,
                fun h => absurd h (by decide), ?_⟩
              rintro ⟨_, _, _, _, ⟨r, hr⟩, _⟩
              cases hr
            | ok r =>
              cases pr with
              | error e =>
                rw [archive_eq_patchErr m n u r e now st hexf]; dsimp only
                exact ⟨⟨[], rfl⟩,
                  fun _ => ⟨m, rfl⟩, fun _ => ⟨⟨n, rfl⟩, by decide⟩,
                  fun _ => ⟨⟨u, rfl⟩, by decide⟩, fun _ => ⟨rfl, by decide⟩,
                  fun _ => ⟨⟨r, rfl⟩, by decide⟩, fun _ => rfl⟩
              | ok w =>
                cases w
                rw [archive_eq_success m n u r now st hexf]; dsimp only
                exact ⟨⟨[], rfl⟩,
                  fun _ => ⟨m, rfl⟩, fun _ => ⟨⟨n, rfl⟩, by decide⟩,
                  fun _ => ⟨⟨u, rfl⟩, by decide⟩, fun _ => ⟨rfl, by decide⟩,
                  fun _ => ⟨⟨r, rfl⟩, by decide⟩, fun _ => rfl⟩

/-- A fully successful environment for the C5 witness. -/
def archiveWitnessEnv : ArchiveEnv :=
  ⟨.ok ⟨some "Hello".toList, some "a@b.c", some "Ann", some true,
        some "2025-01-01T00:00:00Z", some "https://w", some "<m1@x>"⟩,
   .ok 12, .ok "uploadUrl", .ok (), .ok "item1", .ok (), "2025-02-02T00:00:00Z"⟩

/-- An empty library state (no cached columns, lookup healthy). -/
def archiveWitnessState : LibState := ⟨[], [], false⟩

theorem claim_C5_witness :
    (archiveMessageByRestId archiveWitnessEnv archiveWitnessState).trace
        <+: fullSteps ∧
    (ArchiveStep.downloadMime
        ∈ (archiveMessageByRestId archiveWitnessEnv archiveWitnessState).trace →
      (∃ m, archiveWitnessEnv.metaResult = .ok m)) ∧
    (ArchiveStep.createSession
        ∈ (archiveMessageByRestId archiveWitnessEnv archiveWitnessState).trace →
      (∃ n, archiveWitnessEnv.downloadResult = .ok n) ∧
      ArchiveStep.downloadMime
        ∈ (archiveMessageByRestId archiveWitnessEnv archiveWitnessState).trace) ∧
    (ArchiveStep.uploadChunks
        ∈ (archiveMessageByRestId archiveWitnessEnv archiveWitnessState).trace →
      (∃ u, archiveWitnessEnv.sessionResult = .ok u) ∧
      ArchiveStep.createSession
        ∈ (archiveMessageByRestId archiveWitnessEnv archiveWitnessState).trace) ∧
    (ArchiveStep.resolveItem
        ∈ (archiveMessageByRestId archiveWitnessEnv archiveWitnessState).trace →
      archiveWitnessEnv.uploadResult = .ok () ∧
      ArchiveStep.uploadChunks
        ∈ (archiveMessageByRestId archiveWitnessEnv archiveWitnessState).trace) ∧
    (ArchiveStep.patchFields
        ∈ (archiveMessageByRestId archiveWitnessEnv archiveWitnessState).trace →
      (∃ r, archiveWitnessEnv.resolveResult = .ok r) ∧
      ArchiveStep.resolveItem
        ∈ (archiveMessageByRestId archiveWitnessEnv archiveWitnessState).trace) ∧
    (((∃ m, archiveWitnessEnv.metaResult = .ok m ∧
        existsBool archiveWitnessState (m.internetMessageId.getD "") = false) ∧
      (∃ n, archiveWitnessEnv.downloadResult = .ok n) ∧
      (∃ u, archiveWitnessEnv.sessionResult = .ok u) ∧
      archiveWitnessEnv.uploadResult = .ok () ∧
      (∃ r, archiveWitnessEnv.resolveResult = .ok r) ∧
      archiveWitnessEnv.patchResult = .ok ()) →
      (archiveMessageByRestId archiveWitnessEnv archiveWitnessState).trace
        = fullSteps) :=
  claim_C5 archiveWitnessEnv archiveWitnessState

/-- C3 (amended): when the message metadata carries a non-empty
`internetMessageId` that matches the `InternetMessageId` field of some list
item, AND the cached column set contains `InternetMessageId`, AND the
de-dupe lookup succeeds, `archiveMessageByRestId` returns right after the
de-dupe check: no MIME download, no upload, the remote library is
unchanged. -/
theorem claim_C3 (env : ArchiveEnv) (st : LibState) (m : Msg) (imid : String)
    (hmeta : env.metaResult = .ok m)
    (hiid : m.internetMessageId = some imid)
    (hne : imid ≠ "")
    (hcol : st.availableFields.contains fieldInternetId = true)
    (hlk : st.lookupFails = false)
    (hmatch : ∃ it ∈ st.items,
      getField it fieldInternetId = some (.str imid)) :
    archiveMessageByRestId env st
      = ⟨[.fetchMetadata, .dedupeCheck], .ok (), st, none⟩ := by
  have hfil : 0 < (st.items.filter
      (fun it => decide (getField it fieldInternetId
        = some (.str imid)))).length := by
    obtain ⟨it, hit, hfield⟩ := hmatch
    have hmem : it ∈ st.items.filter
        (fun it => decide (getField it fieldInternetId
          = some (.str imid))) :=
      List.mem_filter.mpr ⟨hit, by simp [hfield]⟩
    calc 0 < 1 := Nat.zero_lt_one
    _ ≤ _ := List.length_pos.mpr (List.ne_nil_of_mem hmem)
  have hex : existsBool st (m.internetMessageId.getD "") = true := by
    rw [hiid, Option.getD_some, existsBool_eq, if_neg hne, hcol]
    rw [if_neg (by simp)]
    rw [hlk, if_neg (by simp)]
    simp only [decide_eq_true_eq, List.length_take]
    omega
  unfold archiveMessageByRestId
  rw [hmeta]
  dsimp only
  rw [if_pos hex]

/-- An item already archived under `InternetMessageId = "<m1@x>"`. -/
def dedupeItem : LibItem := ⟨"old.eml".toList, [(fieldInternetId, .str "<m1@x>")]⟩

/-- The same message about to be archived again. -/
def dedupeMsg : Msg :=
  ⟨some "Hi".toList, some "a@b.c", some "Ann", some false,
   some "2025-01-01", some "https://w", some "<m1@x>"⟩

/-- All HTTP calls succeed. -/
def dedupeEnv : ArchiveEnv :=
  ⟨.ok dedupeMsg, .ok 3, .ok "u", .ok (), .ok "i", .ok (), "2025-02-02"⟩

/-- The library holds the matching item but the cached column set is empty
(exactly the state `refreshAvailableFieldsForDrive` leaves behind when the
column fetch failed, TaskPane.tsx line 531). -/
def dedupeMissState : LibState := ⟨[dedupeItem], [], false⟩

/-- C3 counterexample: the message id matches an existing item, yet because
the cached column set does not contain `InternetMessageId` the run
downloads the MIME, uploads the chunks and appends a second copy — the
claim's unconditional early return is false on the code. -/
theorem claim_C3_counterexample :
    (∃ it ∈ dedupeMissState.items,
      getField it fieldInternetId = some (.str "<m1@x>")) ∧
    dedupeMsg.internetMessageId = some "<m1@x>" ∧
    dedupeEnv.metaResult = .ok dedupeMsg ∧
    ArchiveStep.downloadMime
      ∈ (archiveMessageByRestId dedupeEnv dedupeMissState).trace ∧
    ArchiveStep.uploadChunks
      ∈ (archiveMessageByRestId dedupeEnv dedupeMissState).trace ∧
    (archiveMessageByRestId dedupeEnv dedupeMissState).state
      ≠ dedupeMissState ∧
    (archiveMessageByRestId dedupeEnv dedupeMissState).uploadedName
      ≠ none := by
  decide

/-- The same library with the `InternetMessageId` column cached, as the
amended claim requires. -/
def dedupeHitState : LibState := ⟨[dedupeItem], ["InternetMessageId"], false⟩

theorem claim_C3_witness :
    dedupeEnv.metaResult = .ok dedupeMsg ∧
    dedupeMsg.internetMessageId = some "<m1@x>" ∧
    "<m1@x>" ≠ "" ∧
    dedupeHitState.availableFields.contains fieldInternetId = true ∧
    dedupeHitState.lookupFails = false ∧
    (∃ it ∈ dedupeHitState.items,
      getField it fieldInternetId = some (.str "<m1@x>")) ∧
    archiveMessageByRestId dedupeEnv dedupeHitState
      = ⟨[.fetchMetadata, .dedupeCheck], .ok (), dedupeHitState, none⟩ :=
  ⟨rfl, rfl, by decide, by decide, rfl, by decide,
   claim_C3 dedupeEnv dedupeHitState dedupeMsg "<m1@x>" rfl rfl
     (by decide) (by decide) rfl (by decide)⟩

/-- Every completed upload was made under a name produced by
`safeFileNameFromSubject` applied to the message subject. -/
theorem uploadedName_spec (env : ArchiveEnv) (st : LibState) :
    (archiveMessageByRestId env st).uploadedName = none ∨
    ∃ m, env.metaResult = .ok m ∧
      (archiveMessageByRestId env st).uploadedName
        = some (safeFileNameFromSubject (subjectArg m)) := by
  obtain ⟨mr, dr, sr, ur, rr, pr, now⟩ := env
  cases mr with
  | error e =>
    rw [archive_eq_metaErr]
    exact Or.inl rfl
  | ok m =>
    by_cases hex : existsBool st (m.internetMessageId.getD "") = true
    · rw [archive_eq_dedupeHit m dr sr ur rr pr now st hex]
      exact Or.inl rfl
    · have hexf : existsBool st (m.internetMessageId.getD "") = false := by
        simpa using hex
      cases dr with
      | error e =>
        rw [archive_eq_downloadErr m e sr ur rr pr now st hexf]
        exact Or.inl rfl
      | ok n =>
        cases sr with
        | error e =>
          rw [archive_eq_sessionErr m n e ur rr pr now st hexf]
          exact Or.inl rfl
        | ok u =>
          cases ur with
          | error e =>
            rw [archive_eq_uploadErr m n u e rr pr now st hexf]
            exact Or.inl rfl
          | ok v =>
            cases v
            cases rr with
            | error e =>
              rw [archive_eq_resolveErr m n u e pr now st hexf]
              exact Or.inr ⟨m, rfl, rfl⟩
            | ok r =>
              cases pr with
              | error e =>
                rw [archive_eq_patchErr m n u r e now st hexf]
                exact Or.inr ⟨m, rfl, rfl⟩
              | ok w =>
                cases w
                rw [archive_eq_success m n u r now st hexf]
                exact Or.inr ⟨m, rfl, rfl⟩

/-- C7: `safeFileNameFromSubject` maps the subject (or the literal `Email`
when the subject is empty) through the character filter and appends
`.eml`; every result ends in `.eml`; and every file name a run of
`archiveMessageByRestId` uploads is produced by `safeFileNameFromSubject`,
hence ends in `.eml`. -/
theorem claim_C7 :
    (∀ s : List Char, ".eml".toList <:+ safeFileNameFromSubject s) ∧
    (∀ s : List Char, s ≠ [] →
      safeFileNameFromSubject s
        = s.map (fun c => if allowedCharTaskpane c then c else '_')
          ++ ".eml".toList) ∧
    (safeFileNameFromSubject []
        = "Email".toList.map
            (fun c => if allowedCharTaskpane c then c else '_')
          ++ ".eml".toList) ∧
    (∀ env st n, (archiveMessageByRestId env st).uploadedName = some n →
      (∃ subj, n = safeFileNameFromSubject subj) ∧ ".eml".toList <:+ n) := by
  refine ⟨?_, ?_, rfl, ?_⟩
  · intro s
    exact List.suffix_append _ _
  · intro s hs
    unfold safeFileNameFromSubject sanitizeWith
    rw [if_neg hs]
  · intro env st n hn
    rcases uploadedName_spec env st with h | ⟨m, hm, h⟩
    · rw [hn] at h
      cases h
    · rw [hn] at h
      injection h with he
      subst he
      exact ⟨⟨subjectArg m, rfl⟩, List.suffix_append _ _⟩

theorem claim_C7_witness :
    ("Hi: *report*".toList ≠ ([] : List Char)) ∧
    safeFileNameFromSubject "Hi: *report*".toList
      = "Hi: *report*".toList.map
          (fun c => if allowedCharTaskpane c then c else '_')
        ++ ".eml".toList :=
  ⟨by decide, claim_C7.2.1 "Hi: *report*".toList (by decide)⟩

/-! ## Multi-select detection (TaskPane.tsx lines 484-521) -/

/-- A selected item as seen by `getSelectedItemsAsync`; its `itemId` may be
absent. -/
structure SelItem where
  itemId : Option String
deriving DecidableEq, Repr

/-- The host-provided inputs of one `getSelectedMessageRestIds` call:
whether the multi-select API exists, whether Mailbox 1.13 is supported,
the async call outcome (`none` models the call throwing synchronously,
`some (succeeded, items)` the callback result), and the current item. -/
structure SelEnv where
  hasApi : Bool
  supportsReq : Bool
  callResult : Option (Bool × List SelItem)
  currentItemId : Option String
deriving DecidableEq, Repr

/-- The `fallbackToCurrent` closure (TaskPane.tsx lines 487-493): resolve
with the converted REST id of the current item, or with `[]` when there is
none.  `conv` abstracts `mailbox.convertToRestId`. -/
def fallbackToCurrent (conv : String → String) (env : SelEnv) : List String :=
  match env.currentItemId with
  | some i => [conv i]
  | none => []

/-- `getSelectedMessageRestIds` (TaskPane.tsx lines 484-521).  The
multi-select branch is taken only when the API exists, the requirement set
is supported, the call succeeded and more than one item is selected; it
maps the item ids, drops falsy ones (`filter(Boolean)` drops missing and
empty ids) and converts them.  Every other path falls back to the current
item.  The promise always resolves: the function is total. -/
def getSelectedMessageRestIds (conv : String → String) (env : SelEnv) :
    List String :=
  if env.hasApi && env.supportsReq then
    match env.callResult with
    | none => fallbackToCurrent conv env
    | some (succeeded, items) =>
      if succeeded && decide (1 < items.length) then
        (((items.map SelItem.itemId).filterMap id).filter
          (fun s => !(s == ""))).map conv
      else fallbackToCurrent conv env
  else fallbackToCurrent conv env

/-- C9: `getSelectedMessageRestIds` always resolves (it is a total
function of its inputs); with the API present, the requirement supported
and a successful call selecting more than one item it resolves with the
converted ids of all selected items (when each item carries a non-empty
id); in every other case it resolves with the current item's converted id
as a singleton, or `[]` when there is no current item. -/
theorem claim_C9 (conv : String → String) (env : SelEnv) :
    (∀ items, env.hasApi = true → env.supportsReq = true →
      env.callResult = some (true, items) → 1 < items.length →
      getSelectedMessageRestIds conv env
        = (((items.map SelItem.itemId).filterMap id).filter
            (fun s => !(s == ""))).map conv) ∧
    (∀ ids : List String, env.hasApi = true → env.supportsReq = true →
      env.callResult = some (true, ids.map (fun i => (⟨some i⟩ : SelItem))) →
      1 < ids.length → (∀ i ∈ ids, i ≠ "") →
      getSelectedMessageRestIds conv env = ids.map conv) ∧
    (env.hasApi = false →
      getSelectedMessageRestIds conv env = fallbackToCurrent conv env) ∧
    (env.supportsReq = false →
      getSelectedMessageRestIds conv env = fallbackToCurrent conv env) ∧
    (env.callResult = none →
      getSelectedMessageRestIds conv env = fallbackToCurrent conv env) ∧
    (∀ items, env.callResult = some (false, items) →
      getSelectedMessageRestIds conv env = fallbackToCurrent conv env) ∧
    (∀ ok items, env.callResult = some (ok, items) → items.length ≤ 1 →
      getSelectedMessageRestIds conv env = fallbackToCurrent conv env) ∧
    (∀ i, env.currentItemId = some i →
      fallbackToCurrent conv env = [conv i]) ∧
    (env.currentItemId = none → fallbackToCurrent conv env = []) := by
  obtain ⟨hasApi, supportsReq, callResult, currentItemId⟩ := env
  refine ⟨?_, ?_, ?_, ?_, ?_, ?_, ?_, ?_, ?_⟩
  · intro items hA hS hC hlen
    subst hA; subst hS
    unfold getSelectedMessageRestIds
    dsimp only at hC ⊢
    rw [hC]
    dsimp only
    have hd : decide (1 < items.length) = true := decide_eq_true hlen
    rw [hd]
    rfl
  · intro ids hA hS hC hlen hne
    subst hA; subst hS
    unfold getSelectedMessageRestIds
    dsimp only at hC ⊢
    rw [hC]
    dsimp only
    have h1 : ((ids.map (fun i => (⟨some i⟩ : SelItem))).map SelItem.itemId)
        = ids.map some := by
      rw [List.map_map]
      rfl
    rw [h1]
    have h2 : (ids.map some).filterMap id = ids := by
      rw [List.filterMap_map]
      simp
    rw [h2]
    have h3 : ids.filter (fun s => !(s == "")) = ids :=
      List.filter_eq_self.mpr (fun a ha => by simpa using hne a ha)
    rw [h3]
    have hd : decide (1 < (ids.map (fun i => (⟨some i⟩ : SelItem))).length)
        = true :=
      decide_eq_true (by simp only [List.length_map]; exact hlen)
    rw [hd]
    rfl
  · intro hA
    subst hA
    unfold getSelectedMessageRestIds
    dsimp only
    rw [if_neg (by simp)]
  · intro hS
    subst hS
    unfold getSelectedMessageRestIds
    dsimp only
    rw [if_neg (by simp)]
  · intro hC
    unfold getSelectedMessageRestIds
    dsimp only at hC ⊢
    rw [hC]
    split <;> rfl
  · intro items hC
    unfold getSelectedMessageRestIds
    dsimp only at hC ⊢
    rw [hC]
    split
    · dsimp only
      rw [if_neg (by simp)]
    · rfl
  · intro ok items hC hlen
    unfold getSelectedMessageRestIds
    dsimp only at hC ⊢
    rw [hC]
    split
    · dsimp only
      rw [if_neg (by
        intro hcond
        simp only [Bool.and_eq_true, decide_eq_true_eq] at hcond
        omega)]
    · rfl
  · intro i hI
    unfold fallbackToCurrent
    dsimp only at hI ⊢
    rw [hI]
  · intro hI
    unfold fallbackToCurrent
    dsimp only at hI ⊢
    rw [hI]

/-- A concrete selection environment: the multi-select call succeeds with
three items. -/
def selWitnessEnv : SelEnv :=
  ⟨true, true, some (true, [⟨some "e1"⟩, ⟨some "e2"⟩, ⟨some "e3"⟩]),
   some "cur"⟩

theorem claim_C9_witness :
    selWitnessEnv.hasApi = true ∧
    selWitnessEnv.supportsReq = true ∧
    selWitnessEnv.callResult
      = some (true, ["e1", "e2", "e3"].map (fun i => ⟨some i⟩)) ∧
    1 < (["e1", "e2", "e3"] : List String).length ∧
    (∀ i ∈ (["e1", "e2", "e3"] : List String), i ≠ "") ∧
    getSelectedMessageRestIds (fun s => "rest:" ++ s) selWitnessEnv
      = ["e1", "e2", "e3"].map (fun s => "rest:" ++ s) :=
  ⟨rfl, rfl, rfl, by decide, by decide,
   (claim_C9 (fun s => "rest:" ++ s) selWitnessEnv).2.1
     ["e1", "e2", "e3"] rfl rfl rfl (by decide) (by decide)⟩

/-! ## The ten-message cap (TaskPane.tsx lines 846-873, dialog.tsx
lines 340-380) -/

/-- The REST ids the task-pane dialog launcher `openBulkArchiveDialog`
sends to the dialog (TaskPane.tsx lines 842-873): when the multi-select
API exists and the call succeeds with a non-empty selection, the first at
most ten selected item ids, converted (`res.value.slice(0, 10)`);
otherwise the current item's converted id, or `[]` when there is none. -/
def openBulkArchiveDialogRestIds (conv : String → String) (hasApi : Bool)
    (callResult : Option (Bool × List String)) (current : Option String) :
    List String :=
  let fromSel : List String :=
    if hasApi then
      match callResult with
      | some (succeeded, itemIds) =>
        if succeeded && decide (0 < itemIds.length) then
          (itemIds.take 10).map conv
        else []
      | none => []
    else []
  if fromSel = [] then
    match current with
    | some c => [conv c]
    | none => []
  else fromSel

/-- The REST ids the dialog's `handleBulkArchive` actually archives
(dialog.tsx lines 340-380): nothing without a selected drive, folder or
incoming ids; otherwise `ids.slice(0, 10)` — the cap of ten. -/
def handleBulkArchiveProcessedIds (driveSelected folderSelected : Bool)
    (incomingRestIds : List String) : List String :=
  if !driveSelected then []
  else if !folderSelected then []
  else if incomingRestIds.length = 0 then []
  else incomingRestIds.take 10

/-- C4: one bulk-archive run processes at most ten message ids.  The
launcher sends at most ten converted ids — exactly the first at most ten
of a successful non-empty selection — and the dialog handler archives
exactly the first at most ten incoming ids (a prefix of the incoming
list), never more than ten. -/
theorem claim_C4 (conv : String → String) (hasApi : Bool)
    (callResult : Option (Bool × List String)) (current : Option String)
    (driveSelected folderSelected : Bool) (incomingRestIds : List String) :
    (openBulkArchiveDialogRestIds conv hasApi callResult current).length
      ≤ 10 ∧
    (∀ itemIds, hasApi = true → callResult = some (true, itemIds) →
      0 < itemIds.length →
      openBulkArchiveDialogRestIds conv hasApi callResult current
        = (itemIds.take 10).map conv) ∧
    (handleBulkArchiveProcessedIds driveSelected folderSelected
        incomingRestIds).length ≤ 10 ∧
    (handleBulkArchiveProcessedIds driveSelected folderSelected
        incomingRestIds) <+: incomingRestIds ∧
    (driveSelected = true → folderSelected = true → incomingRestIds ≠ [] →
      handleBulkArchiveProcessedIds driveSelected folderSelected
          incomingRestIds
        = incomingRestIds.take 10) := by
  refine ⟨?_, ?_, ?_, ?_, ?_⟩
  · cases hasApi with
    | false => cases current <;> simp [openBulkArchiveDialogRestIds]
    | true =>
      cases callResult with
      | none => cases current <;> simp [openBulkArchiveDialogRestIds]
      | some p =>
        obtain ⟨succeeded, itemIds⟩ := p
        cases succeeded with
        | false => cases current <;> simp [openBulkArchiveDialogRestIds]
        | true =>
          by_cases hlen : 0 < itemIds.length
          · have hne2 : (itemIds.take 10).map conv ≠ [] := by
              intro hemp
              have hlen2 := congrArg List.length hemp
              simp only [List.length_map, List.length_take,
                List.length_nil] at hlen2
              omega
            unfold openBulkArchiveDialogRestIds
            dsimp only
            have hd : decide (0 < itemIds.length) = true := decide_eq_true hlen
            rw [hd]
            show (if ((itemIds.take 10).map conv) = []
                then (match current with
                      | some c => [conv c]
                      | none => ([] : List String))
                else ((itemIds.take 10).map conv)).length ≤ 10
            rw [if_neg hne2, List.length_map, List.length_take]
            omega
          · have hd : decide (0 < itemIds.length) = false := by
              simpa using hlen
            unfold openBulkArchiveDialogRestIds
            dsimp only
            rw [hd]
            cases current <;> simp
  · intro itemIds hA hC hlen
    subst hA
    rw [hC]
    unfold openBulkArchiveDialogRestIds
    dsimp only
    have hne2 : (itemIds.take 10).map conv ≠ [] := by
      intro hemp
      have hlen2 := congrArg List.length hemp
      simp only [List.length_map, List.length_take, List.length_nil] at hlen2
      omega
    have hd : decide (0 < itemIds.length) = true := decide_eq_true hlen
    rw [hd]
    show (if ((itemIds.take 10).map conv) = []
        then (match current with
              | some c => [conv c]
              | none => ([] : List String))
        else ((itemIds.take 10).map conv))
      = (itemIds.take 10).map conv
    rw [if_neg hne2]
  · unfold handleBulkArchiveProcessedIds
    split
    · simp
    · split
      · simp
      · split
        · simp
        · rw [List.length_take]
          omega
  · unfold handleBulkArchiveProcessedIds
    split
    · exact ⟨incomingRestIds, rfl⟩
    · split
      · exact ⟨incomingRestIds, rfl⟩
      · split
        · exact ⟨incomingRestIds, rfl⟩
        · exact List.take_prefix 10 incomingRestIds
  · intro hD hF hne
    subst hD; subst hF
    unfold handleBulkArchiveProcessedIds
    rw [if_neg (by simp), if_neg (by simp), if_neg (by simpa using hne)]

/-- Twelve selected ids for the C4 witness. -/
def capWitnessIds : List String :=
  ["m1", "m2", "m3", "m4", "m5", "m6", "m7", "m8", "m9", "m10", "m11", "m12"]

theorem claim_C4_witness :
    (openBulkArchiveDialogRestIds (fun s => "rest:" ++ s) true
        (some (true, capWitnessIds)) (some "cur")).length ≤ 10 ∧
    (∀ itemIds, true = true →
      (some (true, capWitnessIds)
          : Option (Bool × List String)) = some (true, itemIds) →
      0 < itemIds.length →
      openBulkArchiveDialogRestIds (fun s => "rest:" ++ s) true
          (some (true, capWitnessIds)) (some "cur")
        = (itemIds.take 10).map (fun s => "rest:" ++ s)) ∧
    (handleBulkArchiveProcessedIds true true capWitnessIds).length ≤ 10 ∧
    (handleBulkArchiveProcessedIds true true capWitnessIds)
      <+: capWitnessIds ∧
    (true = true → true = true → capWitnessIds ≠ [] →
      handleBulkArchiveProcessedIds true true capWitnessIds
        = capWitnessIds.take 10) :=
  claim_C4 (fun s => "rest:" ++ s) true (some (true, capWitnessIds))
    (some "cur") true true capWitnessIds

end Flowpoint
